import Mathlib

/-!
# Verification of the vault-plugin-btc wallet engine

Shallow embedding of the transaction builder (`wallet/transaction.go`), the
address cache (`cache.go`), the compaction routine (`path_wallet_compact.go`),
the send/consolidate orchestration (`path_wallet_send.go`,
`path_wallet_consolidate.go`) and the PSBT multi-sig signer
(`path_wallet_psbt.go`).

Conventions of the embedding:
* Go `int64` satoshi amounts and fees are modelled as unbounded `Int`;
  the fee-rate safety contract (`ValidateFeeRate`, rates ≤ 1000 sat/vB)
  and the 21M BTC supply keep all reachable arithmetic far away from
  int64 overflow, so no wrap-around is modelled.
* Go `uint32` indices are modelled as `Nat`; they never approach `2^32`
  in any modelled operation.
* Address types are Go strings (`"p2wpkh"`, `"p2tr"`, possibly `""`),
  compared exactly as the Go code compares them.
* Fallible steps that the accounting claims are conditioned on
  (address decoding, witness signing) are outside the accounting model:
  the modelled builder returns the accounting outcome of the success path,
  and every source-side early error that affects it (dust check,
  insufficient funds) is modelled exactly.
-/

deriving instance DecidableEq for Except

namespace VaultBtc

/-! ## Constants from `wallet/transaction.go` -/

def DustLimit : Int := 546

def DefaultFeeRate : Int := 10

def P2WPKHInputSize : Int := 68

def P2WPKHOutputSize : Int := 31

def P2TRInputSize : Int := 58

def P2TROutputSize : Int := 43

def TxOverhead : Int := 10

def MaxReasonableFeeRate : Int := 1000

def SequenceRBF : Nat := 0xFFFFFFFD

def SequenceFinal : Nat := 0xFFFFFFFF

/-- Address-type string constants from `wallet/keys.go`. -/
def AddressTypeP2WPKH : String := "p2wpkh"

def AddressTypeP2TR : String := "p2tr"

/-- btcd's `wire.TxVersion` constant: the transaction version that
`wire.NewMsgTx(wire.TxVersion)` stamps on every transaction the builder
creates.  Its value in the btcd dependency is 1. -/
def wireTxVersion : Nat := 1

/-! ## Data model (`wallet/transaction.go`) -/

/-- `wallet.UTXO`. -/
structure UTXO where
  txid : String
  vout : Nat
  value : Int
  address : String
  addressIndex : Nat
  scriptPubKey : List Nat
  addressType : String
deriving Repr, DecidableEq

/-- `wallet.TxOutput`. -/
structure TxOutput where
  address : String
  value : Int
deriving Repr, DecidableEq

/-! ## Fee estimation (`wallet/transaction.go`) -/

/-- `estimateFee`: the legacy estimator used by `BuildTransaction`;
every input is counted at the P2WPKH size (68) and every output at the
P2WPKH size (31), regardless of actual address types. -/
def estimateFee (numInputs numOutputs : Nat) (feeRate : Int) : Int :=
  (TxOverhead + (numInputs : Int) * P2WPKHInputSize
    + (numOutputs : Int) * P2WPKHOutputSize) * feeRate

/-- `EstimateFeeForTypes`. -/
def EstimateFeeForTypes (numInputs numOutputs : Nat) (feeRate : Int)
    (inputType outputType : String) : Int :=
  let inputSize : Int :=
    if inputType = AddressTypeP2TR then P2TRInputSize else P2WPKHInputSize
  let outputSize : Int :=
    if outputType = AddressTypeP2TR then P2TROutputSize else P2WPKHOutputSize
  (TxOverhead + (numInputs : Int) * inputSize
    + (numOutputs : Int) * outputSize) * feeRate

/-- Per-UTXO input vsize used by `EstimateFeeForUTXOs`. -/
def inputVSizeOf (u : UTXO) : Int :=
  if u.addressType = AddressTypeP2TR then P2TRInputSize else P2WPKHInputSize

/-- `EstimateFeeForUTXOs`: counts each input at its own type's size. -/
def EstimateFeeForUTXOs (utxos : List UTXO) (numOutputs : Nat) (feeRate : Int)
    (outputType : String) : Int :=
  let inputVSize : Int := (utxos.map inputVSizeOf).sum
  let outputSize : Int :=
    if outputType = AddressTypeP2TR then P2TROutputSize else P2WPKHOutputSize
  (TxOverhead + inputVSize + (numOutputs : Int) * outputSize) * feeRate

/-- `EstimateTransactionFee` (delegates to the legacy estimator). -/
def EstimateTransactionFee (numInputs numOutputs : Nat) (feeRate : Int) : Int :=
  estimateFee numInputs numOutputs feeRate

/-! ## Coin selection (`SelectUTXOs`) -/

/-- The two failure modes of `SelectUTXOs`. -/
inductive SelectError where
  | noUTXOs : SelectError
  | insufficientFunds (haveAmt target fee : Int) : SelectError
deriving Repr, DecidableEq

def sumValues (l : List UTXO) : Int := (l.map (·.value)).sum

/-- The accumulation loop of `SelectUTXOs`, run on the already-sorted list.
Each iteration appends the next UTXO, recomputes the fee with
`EstimateFeeForUTXOs` (2 outputs, output type taken from the just-added
input's type, defaulting to `p2wpkh` when empty) and stops when the
accumulated value covers target + fee. -/
def selectLoop (target feeRate : Int) :
    List UTXO → List UTXO → Int → Int → Except SelectError (List UTXO × Int)
  | [], _, totalInput, estimatedFee =>
      .error (.insufficientFunds totalInput target estimatedFee)
  | u :: rest, selected, totalInput, _ =>
      let selected' := selected ++ [u]
      let totalInput' := totalInput + u.value
      let inputType := if u.addressType = "" then AddressTypeP2WPKH else u.addressType
      let fee := EstimateFeeForUTXOs selected' 2 feeRate inputType
      if totalInput' ≥ target + fee then .ok (selected', fee)
      else selectLoop target feeRate rest selected' totalInput' fee

/-- `SelectUTXOs` after the sort: empty-list check, then the loop with the
initial 1-output estimate. -/
def selectFromSorted (sorted : List UTXO) (target feeRate : Int) :
    Except SelectError (List UTXO × Int) :=
  selectLoop target feeRate sorted [] 0 (EstimateFeeForTypes 0 1 feeRate "" "")

/-- The Go code sorts with `sort.Slice(sorted, λ i j, value i > value j)`
(Go standard library, not part of this repository); the documented contract
of that sort is: the result is a permutation of the input that is
non-increasing in `value`.  Tie order is explicitly *not* guaranteed
(`sort.Slice` is unstable). -/
def SortSliceDescByValue (input sorted : List UTXO) : Prop :=
  sorted.Perm input ∧ sorted.Sorted (fun a b => a.value ≥ b.value)

/-- An executable sort satisfying `SortSliceDescByValue`, used to run the
model on concrete inputs (on value-distinct inputs every compliant sort
agrees, so concrete evaluations below only use tie-free inputs). -/
def sortDescByValue (l : List UTXO) : List UTXO :=
  l.insertionSort (fun a b => a.value ≥ b.value)

instance : IsTotal UTXO (fun a b => a.value ≥ b.value) :=
  ⟨fun a b => le_total b.value a.value⟩

instance : IsTrans UTXO (fun a b => a.value ≥ b.value) :=
  ⟨fun _ _ _ hab hbc => le_trans hbc hab⟩

/-- `SelectUTXOs`: empty check, sort largest-first, then accumulate. -/
def SelectUTXOs (utxos : List UTXO) (target feeRate : Int) :
    Except SelectError (List UTXO × Int) :=
  if utxos.isEmpty then .error .noUTXOs
  else selectFromSorted (sortDescByValue utxos) target feeRate

/-! ## The transaction builder (`BuildTransaction`) -/

/-- The accounting-relevant failure modes of `BuildTransaction` /
`BuildConsolidationTransaction`. -/
inductive BuildError where
  | outputBelowDust (value : Int) : BuildError
  | insufficientFunds (haveAmt need fee : Int) : BuildError
  | needTwoUTXOs (got : Nat) : BuildError
deriving Repr, DecidableEq

/-- A transaction input as the builder creates it
(`wire.NewTxIn` + `txIn.Sequence = SequenceRBF`). -/
structure TxIn where
  txid : String
  vout : Nat
  sequence : Nat
deriving Repr, DecidableEq

/-- The structural content of the built `wire.MsgTx`: version stamped by
`wire.NewMsgTx(wire.TxVersion)`, the inputs in UTXO order, the payment
output values in order, and the change output value when one was added
(`changeNeeded && changeAmount > DustLimit`, line 264). -/
structure BuiltTx where
  version : Nat
  inputs : List TxIn
  paymentOutputValues : List Int
  changeOutput : Option Int
deriving Repr, DecidableEq

/-- `wallet.TransactionResult`, restricted to the accounting fields, plus
the built transaction structure and the local `changeNeeded` flag. -/
structure TransactionResult where
  fee : Int
  totalInput : Int
  totalOutput : Int
  changeAmount : Int
  changeNeeded : Bool
  tx : BuiltTx
deriving Repr, DecidableEq

def sumOutputValues (outputs : List TxOutput) : Int := (outputs.map (·.value)).sum

/-- `BuildTransaction` (accounting and structure).  Follows
`wallet/transaction.go` lines 196-276 and 355-370:
dust-check every requested output; total the inputs; estimate the fee with
the legacy `estimateFee` for `len(outputs)` outputs; if the resulting change
exceeds `DustLimit`, re-estimate with one more output and recompute the
change (`changeNeeded = true`); fail `insufficient funds` when the initial
change is negative; otherwise zero the change and absorb the residue.
The change output is added only when `changeNeeded && changeAmount >
DustLimit`.  The reported fee is `totalInput - totalOutput`, minus
`changeAmount` when `changeNeeded`. -/
def BuildTransaction (utxos : List UTXO) (outputs : List TxOutput)
    (feeRate : Int) : Except BuildError TransactionResult :=
  match outputs.find? (fun out => out.value < DustLimit) with
  | some out => .error (.outputBelowDust out.value)
  | none =>
    let totalOutput := sumOutputValues outputs
    let totalInput := sumValues utxos
    let numOutputs := outputs.length
    let estimatedFee := estimateFee utxos.length numOutputs feeRate
    let changeAmount := totalInput - totalOutput - estimatedFee
    let inputs := utxos.map (fun u => TxIn.mk u.txid u.vout SequenceRBF)
    if changeAmount > DustLimit then
      -- changeNeeded = true: one more output, recompute fee and change
      let estimatedFee' := estimateFee utxos.length (numOutputs + 1) feeRate
      let changeAmount' := totalInput - totalOutput - estimatedFee'
      .ok {
        fee := totalInput - totalOutput - changeAmount'
        totalInput := totalInput
        totalOutput := totalOutput
        changeAmount := changeAmount'
        changeNeeded := true
        tx := {
          version := wireTxVersion
          inputs := inputs
          paymentOutputValues := outputs.map (·.value)
          changeOutput := if changeAmount' > DustLimit then some changeAmount' else none } }
    else if changeAmount < 0 then
      .error (.insufficientFunds totalInput totalOutput estimatedFee)
    else
      -- change is dust: drop it and absorb the residue into the fee
      .ok {
        fee := totalInput - totalOutput
        totalInput := totalInput
        totalOutput := totalOutput
        changeAmount := 0
        changeNeeded := false
        tx := {
          version := wireTxVersion
          inputs := inputs
          paymentOutputValues := outputs.map (·.value)
          changeOutput := none } }

/-- `BuildConsolidationTransaction` (accounting and structure), from
`wallet/transaction.go` lines 380-447 and 526-535.  `destIsP2TR` is the
result of the `GetAddressType(destinationAddress) == "p2tr"` detection. -/
def BuildConsolidationTransaction (utxos : List UTXO) (destIsP2TR : Bool)
    (feeRate : Int) : Except BuildError TransactionResult :=
  if utxos.length < 2 then .error (.needTwoUTXOs utxos.length)
  else
    let totalInput := sumValues utxos
    let outputType := if destIsP2TR then AddressTypeP2TR else AddressTypeP2WPKH
    let fee := EstimateFeeForUTXOs utxos 1 feeRate outputType
    let outputValue := totalInput - fee
    if outputValue ≤ 0 then .error (.insufficientFunds totalInput 0 fee)
    else if outputValue < DustLimit then .error (.outputBelowDust outputValue)
    else
      .ok {
        fee := fee
        totalInput := totalInput
        totalOutput := outputValue
        changeAmount := 0
        changeNeeded := false
        tx := {
          version := wireTxVersion
          inputs := utxos.map (fun u => TxIn.mk u.txid u.vout SequenceRBF)
          paymentOutputValues := [outputValue]
          changeOutput := none } }

/-! ## Address cache (`cache.go`) -/

/-- Instants are modelled as integer timestamps (seconds); durations are
their differences. -/
abbrev Timestamp := Int

/-- `MaxCacheAge = 5 * time.Minute`, in seconds. -/
def MaxCacheAge : Int := 5 * 60

/-- `BalanceInfo`. -/
structure BalanceInfo where
  confirmed : Int
  unconfirmed : Int
deriving Repr, DecidableEq

/-- `TxHistoryItem`. -/
structure TxHistoryItem where
  txHash : String
  height : Int
deriving Repr, DecidableEq

/-- `CachedUTXO`. -/
structure CachedUTXO where
  txid : String
  vout : Nat
  value : Int
  height : Int
deriving Repr, DecidableEq

/-- `AddressCache`: one cached entry.  `statusHash = none` models the nil
pointer (address with no transaction history). -/
structure AddressCache where
  statusHash : Option String
  balance : BalanceInfo
  history : List TxHistoryItem
  utxos : List CachedUTXO
  lastUpdated : Timestamp
deriving Repr, DecidableEq

/-- `WalletCache.Addresses`: the per-wallet map from address to entry. -/
structure WalletCache where
  addresses : String → Option AddressCache

/-- `statusMatches` (nil-aware status-hash comparison). -/
def statusMatches : Option String → Option String → Bool
  | none, none => true
  | none, some _ => false
  | some _, none => false
  | some a, some b => a == b

/-- `GetAddressCacheIfValid`: entry must exist, be at most `MaxCacheAge`
old, and have a matching status hash. -/
def GetAddressCacheIfValid (c : WalletCache) (address : String)
    (currentStatus : Option String) (now : Timestamp) : Option AddressCache :=
  match c.addresses address with
  | none => none
  | some addrCache =>
    if now - addrCache.lastUpdated > MaxCacheAge then none
    else if ¬ statusMatches addrCache.statusHash currentStatus then none
    else some addrCache

/-- `SetAddressCache`: store the entry with `LastUpdated = time.Now()`. -/
def SetAddressCache (c : WalletCache) (address : String) (status : Option String)
    (balance : BalanceInfo) (history : List TxHistoryItem)
    (utxos : List CachedUTXO) (now : Timestamp) : WalletCache :=
  ⟨fun a => if a = address then some ⟨status, balance, history, utxos, now⟩
    else c.addresses a⟩

def emptyWalletCache : WalletCache := ⟨fun _ => none⟩

/-! ## Read-through cache writes (claim C6)

The per-address read-through flow of the four operations that call
`SetAddressCache`, together with the `Client.Subscribe` method of the
Electrum client (`package electrum`) they call first. -/

/-- The outcome `Client.call` delivers to its caller (electrum client,
lines 818-875): the raw JSON result bytes, or an error (send failure,
closed response channel, an `electrum error`, or the 30s timeout). -/
inductive CallResult where
  | ok (raw : String)
  | err (msg : String)
deriving Repr, DecidableEq

/-- `Client.Subscribe` (electrum client, lines 1018-1035), returning the
`(*string, error)` pair as `(status pointer, error message)`: a failed
call returns `(nil, err)`; the literal `null` result returns
`(nil, nil)` (no transaction history); a result that `json.Unmarshal`
cannot decode into a Go string returns `(nil, parse error)`; otherwise
the decoded status is returned with no error.  `parseString` stands for
`json.Unmarshal` into a `string` (an `encoding/json` stdlib dependency):
`none` models a decode failure. -/
def ClientSubscribe (parseString : String → Option String) :
    CallResult → Option String × Option String
  | .err msg => (none, some msg)
  | .ok raw =>
    if raw = "null" then (none, none)
    else
      match parseString raw with
      | none => (none, some "failed to parse subscribe result")
      | some status => (some status, none)

/-- One address iteration of `getUTXOsForWallet`
(`path_wallet_send.go` lines 495-584), taking the
`currentStatus, err := client.Subscribe(...)` pair: consult the cache
only when `err == nil`; on a miss fetch balance, history and utxos; when
the utxo fetch fails even after the reconnect retry the address is
skipped (`continue`) without caching; otherwise write the entry iff
`currentStatus != nil`.  Returns the new cache and whether an entry was
written. -/
def getUTXOsForWalletStep (c : WalletCache) (address : String)
    (currentStatus subErr : Option String) (now : Timestamp)
    (balance : BalanceInfo) (history : List TxHistoryItem)
    (utxoFetch : Option (List CachedUTXO)) : WalletCache × Bool :=
  let cached := if subErr = none then
    GetAddressCacheIfValid c address currentStatus now else none
  match cached with
  | some _ => (c, false)
  | none =>
    match utxoFetch with
    | none => (c, false)
    | some utxos =>
      if currentStatus.isSome then
        (SetAddressCache c address currentStatus balance history utxos now, true)
      else (c, false)

/-- One address iteration of `pathWalletUTXOsRead` (lines 93-197 of the
UTXO-listing path): identical gating, except that a failed utxo fetch
falls through with an empty list instead of skipping the address. -/
def pathWalletUTXOsReadStep (c : WalletCache) (address : String)
    (currentStatus subErr : Option String) (now : Timestamp)
    (balance : BalanceInfo) (history : List TxHistoryItem)
    (utxoFetch : Option (List CachedUTXO)) : WalletCache × Bool :=
  let cached := if subErr = none then
    GetAddressCacheIfValid c address currentStatus now else none
  match cached with
  | some _ => (c, false)
  | none =>
    let utxos := match utxoFetch with
      | none => []
      | some us => us
    if currentStatus.isSome then
      (SetAddressCache c address currentStatus balance history utxos now, true)
    else (c, false)

/-- One address iteration of `pathWalletAddressesRead`
(`path_wallet_addresses.go` lines 100-175) and of `pathWalletsRead`
(wallet read, lines 364-451): both consult the cache only when subscribe
succeeded, substitute defaults for failed fetches, and gate the cache
write on `subscribeErr == nil`. -/
def subscribeGatedReadStep (c : WalletCache) (address : String)
    (currentStatus subErr : Option String) (now : Timestamp)
    (balance : BalanceInfo) (history : List TxHistoryItem)
    (utxos : List CachedUTXO) : WalletCache × Bool :=
  let cached := if subErr = none then
    GetAddressCacheIfValid c address currentStatus now else none
  match cached with
  | some _ => (c, false)
  | none =>
    if subErr = none then
      (SetAddressCache c address currentStatus balance history utxos now, true)
    else (c, false)

/-! ## Persistence model: address records and wallet record -/

/-- `storedAddress`. -/
structure AddrRecord where
  address : String
  index : Nat
  derivationPath : String
  scriptHash : String
  spent : Bool
deriving Repr, DecidableEq

/-- The index-accounting fields of `btcWallet`. -/
structure WalletRecord where
  nextAddressIndex : Nat
  firstActiveIndex : Nat
deriving Repr, DecidableEq

/-- Per-wallet backend state: the wallet record, the stored address
records (`addresses/{name}/{index}`, listed in storage order), and
whether the wallet's cache map is still present in the cache manager
(`InvalidateWallet` deletes it). -/
structure BackendState where
  wallet : WalletRecord
  records : List AddrRecord
  cachePresent : Bool
deriving Repr, DecidableEq

/-- `markAddressesSpent`: set `Spent = true` on the record stored at each
listed index. -/
def markAddressesSpent (records : List AddrRecord) (indices : List Nat) :
    List AddrRecord :=
  records.map (fun r => if r.index ∈ indices then { r with spent := true } else r)

/-! ## Send and consolidate orchestration (claim C5) -/

/-- Outcome of `client.BroadcastTransaction`. -/
inductive BroadcastOutcome where
  | ok (txid : String)
  | failed (msg : String)
deriving Repr, DecidableEq

/-- The response fields of `pathWalletSend` that the claims are about. -/
structure SendResponse where
  txid : String
  hexReturned : Option String
  fee : Int
  changeAmount : Int
  changeAddress : String
  broadcast : Bool
  errorMsg : Option String
deriving Repr, DecidableEq

/-- The response fields of `pathWalletConsolidate` that the claims are
about. -/
structure ConsolidateResponse where
  txid : String
  hexReturned : Option String
  fee : Int
  outputValue : Int
  outputAddress : String
  broadcast : Bool
  errorMsg : Option String
deriving Repr, DecidableEq

/-- Result of the state-mutating tail of a send/consolidate operation. -/
structure SendOpResult (Resp : Type) where
  state : BackendState
  response : Resp
  invalidatedCache : Bool
  markedSpent : List Nat
deriving Repr, DecidableEq

/-- The tail of `pathWalletSend` (`path_wallet_send.go` lines 226-314),
from the point where the change address has been derived: persist the
change-address record at `NextAddressIndex` (chain-1 derivation path,
`Spent` zero-valued), advance and save `NextAddressIndex`, build the
transaction (its result is `txr` with signed hex `hexStr` and local txid
`localTxid`), then broadcast.  On broadcast failure the response carries
the error, the *local* txid, the signed hex and the change fields, and no
further state is touched.  On success the wallet cache is invalidated and
the input addresses are marked spent. -/
def sendOperation (st : BackendState) (changeAddr changePath changeSH : String)
    (txr : TransactionResult) (localTxid hexStr : String)
    (selected : List UTXO) (outcome : BroadcastOutcome) :
    SendOpResult SendResponse :=
  let changeRec : AddrRecord :=
    ⟨changeAddr, st.wallet.nextAddressIndex, changePath, changeSH, false⟩
  let st1 : BackendState :=
    { st with
      records := st.records ++ [changeRec]
      wallet := { st.wallet with nextAddressIndex := st.wallet.nextAddressIndex + 1 } }
  match outcome with
  | .failed msg =>
    { state := st1
      response :=
        { txid := localTxid
          hexReturned := some hexStr
          fee := txr.fee
          changeAmount := txr.changeAmount
          changeAddress := changeAddr
          broadcast := false
          errorMsg := some msg }
      invalidatedCache := false
      markedSpent := [] }
  | .ok netTxid =>
    let spentIndices := selected.map (·.addressIndex)
    { state :=
        { st1 with
          records := markAddressesSpent st1.records spentIndices
          cachePresent := false }
      response :=
        { txid := netTxid
          hexReturned := none
          fee := txr.fee
          changeAmount := txr.changeAmount
          changeAddress := changeAddr
          broadcast := true
          errorMsg := none }
      invalidatedCache := true
      markedSpent := spentIndices }

/-- The tail of `pathWalletConsolidate` (`path_wallet_consolidate.go`
lines 235-318), from the point where the destination address has been
derived (non-dry-run): persist the destination-address record at
`NextAddressIndex`, advance and save the index, build the consolidation
transaction, then broadcast; failure and success branches mirror the send
path. -/
def consolidateOperation (st : BackendState) (destAddr destPath destSH : String)
    (txr : TransactionResult) (localTxid hexStr : String) (outputValue : Int)
    (selected : List UTXO) (outcome : BroadcastOutcome) :
    SendOpResult ConsolidateResponse :=
  let destRec : AddrRecord :=
    ⟨destAddr, st.wallet.nextAddressIndex, destPath, destSH, false⟩
  let st1 : BackendState :=
    { st with
      records := st.records ++ [destRec]
      wallet := { st.wallet with nextAddressIndex := st.wallet.nextAddressIndex + 1 } }
  match outcome with
  | .failed msg =>
    { state := st1
      response :=
        { txid := localTxid
          hexReturned := some hexStr
          fee := txr.fee
          outputValue := outputValue
          outputAddress := destAddr
          broadcast := false
          errorMsg := some msg }
      invalidatedCache := false
      markedSpent := [] }
  | .ok netTxid =>
    let spentIndices := selected.map (·.addressIndex)
    { state :=
        { st1 with
          records := markAddressesSpent st1.records spentIndices
          cachePresent := false }
      response :=
        { txid := netTxid
          hexReturned := none
          fee := txr.fee
          outputValue := outputValue
          outputAddress := destAddr
          broadcast := true
          errorMsg := none }
      invalidatedCache := true
      markedSpent := spentIndices }

/-! ## Compaction (`runCompaction`, claim C8) -/

/-- The environment compaction consults: the indexer balance call by
scripthash, and address regeneration from the seed
(`wallet.GenerateAddressInfoForType`, returning address and scripthash). -/
structure CompactEnv where
  getBalance : String → Except Unit BalanceInfo
  regenerate : Nat → Except Unit (String × String)

/-- Lookup of the stored record for an index
(`for i := range addresses { if addresses[i].Index == idx ... }`). -/
def findStored (addresses : List AddrRecord) (idx : Nat) : Option AddrRecord :=
  addresses.find? (fun a => a.index = idx)

/-- The record `runCompaction` examines at an index: the stored record,
else the regenerated one with `Spent: false`; `none` when regeneration
fails (the loop breaks there). -/
def compactRecordAt (env : CompactEnv) (addresses : List AddrRecord)
    (idx : Nat) : Option AddrRecord :=
  match findStored addresses idx with
  | some a => some a
  | none =>
    match env.regenerate idx with
    | .ok info => some ⟨info.1, idx, "", info.2, false⟩
    | .error _ => none

/-- Whether the compaction loop advances past `idx`: the record is
available and spent, and the indexer reports a zero balance. -/
def compactOK (env : CompactEnv) (addresses : List AddrRecord) (idx : Nat) :
    Bool :=
  match compactRecordAt env addresses idx with
  | none => false
  | some a =>
    if ¬ a.spent then false
    else
      match env.getBalance a.scriptHash with
      | .error _ => false
      | .ok bal => ¬ (bal.confirmed > 0 ∨ bal.unconfirmed > 0)

/-- The watermark loop of `runCompaction` (lines 123-168): starting at
`FirstActiveIndex` with `NextAddressIndex - FirstActiveIndex` iterations,
advance while `compactOK` holds and stop at the first failure. -/
def compactScan (env : CompactEnv) (addresses : List AddrRecord) :
    Nat → Nat → Nat
  | idx, 0 => idx
  | idx, fuel + 1 =>
    if compactOK env addresses idx then compactScan env addresses (idx + 1) fuel
    else idx

/-- `CompactionResult`. -/
structure CompactionResult where
  previousFirstActive : Nat
  newFirstActive : Nat
  addressesDeleted : Nat
  addressesRemaining : Nat
deriving Repr, DecidableEq

/-- `runCompaction` (lines 101-205): compute the new watermark, delete
every stored address record with index below it, update
`FirstActiveIndex`, leave `NextAddressIndex` alone, and invalidate the
wallet cache. -/
def runCompaction (env : CompactEnv) (st : BackendState) :
    SendOpResult CompactionResult :=
  let k := compactScan env st.records st.wallet.firstActiveIndex
    (st.wallet.nextAddressIndex - st.wallet.firstActiveIndex)
  let deleted := st.records.filter (fun a => a.index < k)
  let remaining := st.records.filter (fun a => ¬ a.index < k)
  { state :=
      { wallet := { st.wallet with firstActiveIndex := k }
        records := remaining
        cachePresent := false }
    response :=
      { previousFirstActive := st.wallet.firstActiveIndex
        newFirstActive := k
        addressesDeleted := deleted.length
        addressesRemaining := st.wallet.nextAddressIndex - k }
    invalidatedCache := true
    markedSpent := [] }

/-! ## PSBT multi-sig signing, strategy S3 (claim C9) -/

/-- `extractPubKeysFromScript` (`path_wallet_psbt.go` lines 1473-1497):
read the script byte-by-byte; a `0x21` push with 33 bytes available whose
payload starts with `0x02`/`0x03` yields a compressed pubkey; other data
pushes (`0x01`-`0x4b`) are skipped over; any other opcode is stepped
past. -/
def extractPubKeysAux : Nat → List Nat → List (List Nat)
  | 0, _ => []
  | _, [] => []
  | fuel + 1, opcode :: rest =>
    if opcode = 0x21 ∧ 33 ≤ rest.length then
      let pk := rest.take 33
      if pk.head? = some 0x02 ∨ pk.head? = some 0x03 then
        pk :: extractPubKeysAux fuel (rest.drop 33)
      else
        extractPubKeysAux fuel (rest.drop 33)
    else if 0x01 ≤ opcode ∧ opcode ≤ 0x4b then
      extractPubKeysAux fuel (rest.drop opcode)
    else
      extractPubKeysAux fuel rest

/-- The loop advances `i` by at least one byte per iteration, so
`script.length` iterations always reach the end of the script. -/
def extractPubKeysFromScript (script : List Nat) : List (List Nat) :=
  extractPubKeysAux script.length script

/-- `txscript.SigHashAll`. -/
def SigHashAll : Nat := 1

/-- An ECDSA witness signature as `signMultiSigInput` produces it with
`txscript.RawTxInWitnessSignature`: it commits to the script passed in
(the input's `witness_script`, not the scriptPubKey) and to the sighash
flag, and is made with the key whose compressed pubkey is recorded. -/
structure EcdsaWitnessSig where
  script : List Nat
  hashType : Nat
  pubkey : List Nat
deriving Repr, DecidableEq

/-- The PSBT-input fields strategy S3 reads and writes. -/
structure PsbtInputModel where
  witnessScript : Option (List Nat)
  partialSigs : List (List Nat × EcdsaWitnessSig)
deriving Repr, DecidableEq

/-- The wallet's key material as S3 scans it: chain (0 receiving /
1 change) and index map to the compressed pubkey of
`DeriveReceivingKeyForType` / `DeriveChangeKeyForType` with the wallet's
seed and address type; `none` models a derivation / pubkey failure
(the Go loop `continue`s past those). -/
structure KeyEnv where
  derive : Nat → Nat → Option (List Nat)

/-- `signMultiSigInput` (lines 1433-1470): sign against the
`witness_script` with `SIGHASH_ALL` and append `{pubkey, sig}` to
`PartialSigs` (append, never replace). -/
def signMultiSigInput (input : PsbtInputModel) (ws : List Nat)
    (pubkey : List Nat) : PsbtInputModel :=
  { input with
    partialSigs := input.partialSigs ++ [(pubkey, ⟨ws, SigHashAll, pubkey⟩)] }

/-- One (chain, index) probe of the S3 scan: derive the key, then test
whether its compressed pubkey occurs among the script's pubkeys. -/
def tryKeyAt (env : KeyEnv) (pubkeys : List (List Nat)) (chain idx : Nat) :
    Option (List Nat) :=
  match env.derive chain idx with
  | none => none
  | some pk => if pk ∈ pubkeys then some pk else none

/-- The S3 scan order (lines 1304-1335): indices ascending, and for each
index chain 0 then chain 1; the first hit wins. -/
def scanForScriptKey (env : KeyEnv) (pubkeys : List (List Nat)) :
    Nat → Nat → Option (Nat × Nat × List Nat)
  | _, 0 => none
  | idx, fuel + 1 =>
    match tryKeyAt env pubkeys 0 idx with
    | some pk => some (idx, 0, pk)
    | none =>
      match tryKeyAt env pubkeys 1 idx with
      | some pk => some (idx, 1, pk)
      | none => scanForScriptKey env pubkeys (idx + 1) fuel

/-- The scan bound (lines 1299-1302):
`maxIndex := NextAddressIndex + 20; if maxIndex < 100 { maxIndex = 100 }`. -/
def multiSigScanBound (nextAddressIndex : Nat) : Nat :=
  max 100 (nextAddressIndex + 20)

/-- `trySignMultiSig` (lines 1287-1338) given the input's witness script:
extract the compressed pubkeys, scan the wallet's keys, and sign with the
first key found in the script. -/
def trySignMultiSig (env : KeyEnv) (nextAddressIndex : Nat)
    (input : PsbtInputModel) (ws : List Nat) :
    Option (PsbtInputModel × Nat × Nat × List Nat) :=
  let pubkeys := extractPubKeysFromScript ws
  if pubkeys.isEmpty then none
  else
    match scanForScriptKey env pubkeys 0 (multiSigScanBound nextAddressIndex) with
    | none => none
    | some (idx, chain, pk) => some (signMultiSigInput input ws pk, idx, chain, pk)

/-- The strategy-3 guard in the signing driver (line 1173):
S3 only runs when the input carries a `witness_script`. -/
def strategy3 (env : KeyEnv) (nextAddressIndex : Nat)
    (input : PsbtInputModel) : Option (PsbtInputModel × Nat × Nat × List Nat) :=
  match input.witnessScript with
  | none => none
  | some ws => trySignMultiSig env nextAddressIndex input ws

/-! ## Spec-side definition for claim C1 -/

/-- Output vsize by address-type string. -/
def outputVSizeOfType (t : String) : Int :=
  if t = AddressTypeP2TR then P2TROutputSize else P2WPKHOutputSize

/-- Spec-side definition, written from the words of claim C1 for
comparison against the source-derived builder: a vsize in which each
input contributes its own type's size (68 for P2WPKH, 58 for P2TR), each
payment output contributes the destination address type's size, and the
change output (when present) the wallet type's size. -/
def specTypeAwareVSize (utxos : List UTXO) (destTypes : List String)
    (changeType : String) (withChange : Bool) : Int :=
  TxOverhead + (utxos.map inputVSizeOf).sum
    + (destTypes.map outputVSizeOfType).sum
    + (if withChange then outputVSizeOfType changeType else 0)

/-! ## Specification predicates and concrete witness inputs -/

/-- The change policy `BuildTransaction` actually implements on a
single-output send: `change = Σin − out − fee(n, 1, rate)`; when
`change > DustLimit` the fee is recomputed with 2 outputs and the change
recomputed, but the change output is emitted only if the *recomputed*
change still exceeds `DustLimit`; when `0 ≤ change ≤ DustLimit` no change
output is emitted and the residue is absorbed into the fee; the build
fails with `InsufficientFunds` exactly when `change < 0`. -/
def ChangePolicySpec (utxos : List UTXO) (out : TxOutput) (feeRate : Int) :
    Prop :=
  (∀ res, BuildTransaction utxos [out] feeRate = .ok res →
    (res.changeNeeded = true ↔
      sumValues utxos - out.value - estimateFee utxos.length 1 feeRate > DustLimit)
    ∧ (res.changeNeeded = true →
        res.changeAmount
          = sumValues utxos - out.value - estimateFee utxos.length 2 feeRate
        ∧ res.fee = estimateFee utxos.length 2 feeRate
        ∧ res.tx.changeOutput
          = (if res.changeAmount > DustLimit then some res.changeAmount else none))
    ∧ (res.changeNeeded = false →
        res.changeAmount = 0 ∧ res.tx.changeOutput = none
        ∧ res.fee = sumValues utxos - out.value))
  ∧ (sumValues utxos - out.value - estimateFee utxos.length 1 feeRate < 0 ↔
      BuildTransaction utxos [out] feeRate
        = .error (.insufficientFunds (sumValues utxos) out.value
            (estimateFee utxos.length 1 feeRate)))
  ∧ (0 ≤ sumValues utxos - out.value - estimateFee utxos.length 1 feeRate →
      ∃ res, BuildTransaction utxos [out] feeRate = .ok res)

/-- What `runCompaction` guarantees: the watermark `k` is never below the
previous `first_active_index` and never above `next_address_index`; the
new `first_active_index` is `k` and `next_address_index` is untouched;
exactly the records with `index < k` are deleted; every index strictly
below `k` (from the old watermark) passed the spent-and-empty check and,
unless the whole range was consumed, the index `k` itself failed it; and
the wallet cache is invalidated. -/
def CompactionCorrect (env : CompactEnv) (st : BackendState) : Prop :=
  st.wallet.firstActiveIndex ≤ (runCompaction env st).response.newFirstActive
  ∧ (runCompaction env st).response.newFirstActive ≤ st.wallet.nextAddressIndex
  ∧ (runCompaction env st).state.wallet.firstActiveIndex
    = (runCompaction env st).response.newFirstActive
  ∧ (runCompaction env st).state.wallet.nextAddressIndex
    = st.wallet.nextAddressIndex
  ∧ (runCompaction env st).state.records
    = st.records.filter
        (fun a => ¬ a.index < (runCompaction env st).response.newFirstActive)
  ∧ (∀ i, st.wallet.firstActiveIndex ≤ i →
      i < (runCompaction env st).response.newFirstActive →
      compactOK env st.records i = true)
  ∧ ((runCompaction env st).response.newFirstActive
        < st.wallet.nextAddressIndex →
      compactOK env st.records
        ((runCompaction env st).response.newFirstActive) = false)
  ∧ (runCompaction env st).invalidatedCache = true

/-- The S-compact scenario environment: every address empty at the
indexer, regeneration unavailable. -/
def compactEnv0 : CompactEnv :=
  ⟨fun _ => .ok ⟨0, 0⟩, fun _ => .error ()⟩

/-- Ten spent records at indices 0..9. -/
def compactRecords0 : List AddrRecord :=
  (List.range 10).map (fun i => ⟨"addr", i, "", "sh", true⟩)

/-- Wallet with `next_address_index = 10`, `first_active_index = 0`. -/
def compactState0 : BackendState :=
  ⟨⟨10, 0⟩, compactRecords0, true⟩

/-- A 33-byte compressed pubkey used in the C9 witness. -/
def msPk0 : List Nat := 2 :: List.replicate 32 0

/-- A 2-element multisig-style script fragment: push of `msPk0` followed
by `OP_CHECKMULTISIG` (0xae). -/
def msScript0 : List Nat := 0x21 :: msPk0 ++ [0xae]

/-- A key environment whose only derivable key is `msPk0` at chain 0,
index 0. -/
def keyEnv0 : KeyEnv :=
  ⟨fun chain idx => if chain = 0 ∧ idx = 0 then some msPk0 else none⟩

/-- The C9 witness input carrying the witness script. -/
def msInput0 : PsbtInputModel := ⟨some msScript0, []⟩

/-! # Theorems -/

/-! ## Claim C10: accounting identity -/

/-- C10: every successful `BuildTransaction` satisfies
`total_input = fee + total_output + change_amount`, and the change amount
is zero whenever no change output was needed (the `changeNeeded` branch
was not taken). -/
theorem c10_accounting_identity (utxos : List UTXO) (outputs : List TxOutput)
    (feeRate : Int) (res : TransactionResult)
    (h : BuildTransaction utxos outputs feeRate = .ok res) :
    res.totalInput = res.fee + res.totalOutput + res.changeAmount
    ∧ (res.changeNeeded = false → res.changeAmount = 0) := by
  simp only [BuildTransaction] at h
  split at h
  · exact absurd h (by simp)
  · split at h
    · injection h with h
      subst h
      refine ⟨by dsimp; ring, ?_⟩
      intro hfalse
      simp at hfalse
    · split at h
      · exact absurd h (by simp)
      · injection h with h
        subst h
        exact ⟨by dsimp; ring, fun _ => rfl⟩

/-- C10 witness: the identity at a concrete successful build. -/
theorem c10_accounting_identity_witness :
    BuildTransaction [⟨"aa", 0, 100000, "addr", 0, [], ""⟩]
        [⟨"dest", 50000⟩] 10
      = .ok ⟨1400, 100000, 50000, 48600, true,
          ⟨1, [⟨"aa", 0, 0xFFFFFFFD⟩], [50000], some 48600⟩⟩
    ∧ ((100000 : Int) = 1400 + 50000 + 48600 ∧ (true = false → (48600 : Int) = 0)) := by
  constructor
  · decide
  · exact c10_accounting_identity [⟨"aa", 0, 100000, "addr", 0, [], ""⟩]
      [⟨"dest", 50000⟩] 10
      ⟨1400, 100000, 50000, 48600, true,
        ⟨1, [⟨"aa", 0, 0xFFFFFFFD⟩], [50000], some 48600⟩⟩ (by decide)

/-! ## Claim C4: transaction version and RBF sequence -/

/-- C4 counterexample: both builders stamp transaction version 1 (btcd's
`wire.TxVersion`), not version 2 as the claim states, as shown on a
concrete successful send build and a concrete successful consolidation
build. -/
theorem c4_counterexample :
    (BuildTransaction [⟨"aa", 0, 100000, "addr", 0, [], ""⟩]
        [⟨"dest", 50000⟩] 10).map (fun r => r.tx.version) = .ok 1
    ∧ (BuildConsolidationTransaction
        [⟨"aa", 0, 100000, "addr", 0, [], ""⟩,
         ⟨"bb", 1, 90000, "addr2", 1, [], ""⟩] false 10).map
        (fun r => r.tx.version) = .ok 1
    ∧ (1 : Nat) ≠ 2 := by
  refine ⟨by decide, by decide, by decide⟩

/-- C4 (amended): every transaction produced by the send builder and the
consolidation builder carries version 1 (btcd's `wire.TxVersion` default)
and sequence `0xFFFFFFFD` (BIP125 opt-in RBF) on every input. -/
theorem c4_version_and_rbf_sequence (utxos : List UTXO)
    (outputs : List TxOutput) (feeRate : Int) (res : TransactionResult)
    (utxos' : List UTXO) (destIsP2TR : Bool) (feeRate' : Int)
    (res' : TransactionResult)
    (h : BuildTransaction utxos outputs feeRate = .ok res)
    (h' : BuildConsolidationTransaction utxos' destIsP2TR feeRate' = .ok res') :
    (res.tx.version = wireTxVersion ∧ wireTxVersion = 1
      ∧ ∀ txin ∈ res.tx.inputs, txin.sequence = SequenceRBF)
    ∧ (res'.tx.version = wireTxVersion
      ∧ ∀ txin ∈ res'.tx.inputs, txin.sequence = SequenceRBF) := by
  constructor
  · simp only [BuildTransaction] at h
    split at h
    · exact absurd h (by simp)
    · have hseq : ∀ txin ∈ utxos.map (fun u => TxIn.mk u.txid u.vout SequenceRBF),
          txin.sequence = SequenceRBF := by
        intro txin htxin
        rcases List.mem_map.mp htxin with ⟨u, _, rfl⟩
        rfl
      split at h
      · injection h with h
        subst h
        exact ⟨rfl, rfl, hseq⟩
      · split at h
        · exact absurd h (by simp)
        · injection h with h
          subst h
          exact ⟨rfl, rfl, hseq⟩
  · simp only [BuildConsolidationTransaction] at h'
    repeat' split at h'
    any_goals exact Except.noConfusion h'
    all_goals injection h' with h'
    all_goals subst h'
    all_goals refine ⟨rfl, ?_⟩
    all_goals intro txin htxin
    all_goals rcases List.mem_map.mp htxin with ⟨u, _, rfl⟩
    all_goals rfl

/-- C4 witness: the amended statement at concrete successful builds. -/
theorem c4_version_and_rbf_sequence_witness :
    BuildTransaction [⟨"aa", 0, 100000, "addr", 0, [], ""⟩]
        [⟨"dest", 50000⟩] 10
      = .ok ⟨1400, 100000, 50000, 48600, true,
          ⟨1, [⟨"aa", 0, 0xFFFFFFFD⟩], [50000], some 48600⟩⟩
    ∧ BuildConsolidationTransaction
        [⟨"aa", 0, 100000, "addr", 0, [], ""⟩,
         ⟨"bb", 1, 90000, "addr2", 1, [], ""⟩] false 10
      = .ok ⟨1770, 190000, 188230, 0, false,
          ⟨1, [⟨"aa", 0, 0xFFFFFFFD⟩, ⟨"bb", 1, 0xFFFFFFFD⟩], [188230], none⟩⟩
    ∧ (((1 : Nat) = wireTxVersion ∧ wireTxVersion = 1
        ∧ ∀ txin ∈ [TxIn.mk "aa" 0 0xFFFFFFFD], txin.sequence = SequenceRBF)
      ∧ ((1 : Nat) = wireTxVersion
        ∧ ∀ txin ∈ [TxIn.mk "aa" 0 0xFFFFFFFD, TxIn.mk "bb" 1 0xFFFFFFFD],
            txin.sequence = SequenceRBF)) := by
  refine ⟨by decide, by decide, ?_⟩
  exact c4_version_and_rbf_sequence
    [⟨"aa", 0, 100000, "addr", 0, [], ""⟩] [⟨"dest", 50000⟩] 10
    ⟨1400, 100000, 50000, 48600, true,
      ⟨1, [⟨"aa", 0, 0xFFFFFFFD⟩], [50000], some 48600⟩⟩
    [⟨"aa", 0, 100000, "addr", 0, [], ""⟩, ⟨"bb", 1, 90000, "addr2", 1, [], ""⟩]
    false 10
    ⟨1770, 190000, 188230, 0, false,
      ⟨1, [⟨"aa", 0, 0xFFFFFFFD⟩, ⟨"bb", 1, 0xFFFFFFFD⟩], [188230], none⟩⟩
    (by decide) (by decide)

/-! ## Claim C1: fee computation and fee-rate adherence -/

/-- C1 counterexample: `BuildTransaction` prices a P2TR input at the
P2WPKH size.  With one P2TR input, a P2WPKH destination, a P2WPKH change
output and rate 20, the build succeeds with a change output and fee 2800,
while the claimed type-aware vsize is 130: the fee is not
`rate * typeAwareVsize = 2600`, and `fee / vsize = 2800 / 130 > 21 = r + 1`,
so neither conjunct of the claim holds. -/
theorem c1_counterexample :
    (BuildTransaction [⟨"aa", 0, 1000000, "addr", 0, [], "p2tr"⟩]
        [⟨"dest", 500000⟩] 20).map (fun r => (r.fee, r.tx.changeOutput))
      = .ok (2800, some 497200)
    ∧ specTypeAwareVSize [⟨"aa", 0, 1000000, "addr", 0, [], "p2tr"⟩]
        [AddressTypeP2WPKH] AddressTypeP2WPKH true = 130
    ∧ (2800 : Int) ≠ 20 * 130
    ∧ ¬ ((2800 : Int) ≤ (20 + 1) * 130) := by
  refine ⟨by decide, by decide, by decide, by decide⟩

/-- C1 (amended): for every fee rate `r > 0` and successful build, the fee
is computed from the *legacy* estimated vsize in which every input counts
68 vbytes and every output 31 vbytes regardless of type
(`estimateFee`): when a change output was planned the returned fee is
exactly `r` times that estimate with the change output counted (so
fee / estimated-vsize = r), and otherwise the fee is the whole residue
`Σin − Σout`, which exceeds the 1-change-less estimate by at most
`DustLimit`. -/
theorem c1_fee_from_legacy_estimate (utxos : List UTXO)
    (outputs : List TxOutput) (feeRate : Int) (res : TransactionResult)
    (_hr : 0 < feeRate)
    (h : BuildTransaction utxos outputs feeRate = .ok res) :
    (res.changeNeeded = true →
      res.fee = estimateFee utxos.length (outputs.length + 1) feeRate)
    ∧ (res.changeNeeded = false →
      res.fee = res.totalInput - res.totalOutput
      ∧ estimateFee utxos.length outputs.length feeRate ≤ res.fee
      ∧ res.fee ≤ estimateFee utxos.length outputs.length feeRate + DustLimit) := by
  simp only [BuildTransaction] at h
  split at h
  · exact Except.noConfusion h
  · split at h
    · injection h with h
      subst h
      refine ⟨fun _ => by dsimp; ring, fun hfalse => by simp at hfalse⟩
    · split at h
      · exact Except.noConfusion h
      · rename_i hnotbig hnotneg
        injection h with h
        subst h
        refine ⟨fun hfalse => by simp at hfalse, fun _ => ⟨rfl, ?_, ?_⟩⟩
        · dsimp at hnotbig hnotneg ⊢
          omega
        · dsimp at hnotbig hnotneg ⊢
          omega

/-- C1 witness: the amended statement at a concrete successful build with
a change output. -/
theorem c1_fee_from_legacy_estimate_witness :
    (0 : Int) < 10
    ∧ BuildTransaction [⟨"aa", 0, 100000, "addr", 0, [], "p2tr"⟩]
        [⟨"dest", 50000⟩] 10
      = .ok ⟨1400, 100000, 50000, 48600, true,
          ⟨1, [⟨"aa", 0, 0xFFFFFFFD⟩], [50000], some 48600⟩⟩
    ∧ ((true = true → (1400 : Int) = estimateFee 1 2 10)
      ∧ (true = false →
        (1400 : Int) = 100000 - 50000
        ∧ estimateFee 1 1 10 ≤ 1400
        ∧ (1400 : Int) ≤ estimateFee 1 1 10 + DustLimit)) := by
  refine ⟨by decide, by decide, ?_⟩
  exact c1_fee_from_legacy_estimate [⟨"aa", 0, 100000, "addr", 0, [], "p2tr"⟩]
    [⟨"dest", 50000⟩] 10
    ⟨1400, 100000, 50000, 48600, true,
      ⟨1, [⟨"aa", 0, 0xFFFFFFFD⟩], [50000], some 48600⟩⟩
    (by decide) (by decide)

/-! ## Claim C2: change policy -/

/-- C2 counterexample: with one 511447-sat P2WPKH input, a 500000-sat
output and rate 100, the initial change is 547 > DustLimit, yet the built
transaction has *no* change output: recomputing the fee with 2 outputs
drives the change to −2553, and the builder re-checks
`changeAmount > DustLimit` before emitting the change output. -/
theorem c2_counterexample :
    (BuildTransaction [⟨"bb", 0, 511447, "addr", 0, [], "p2wpkh"⟩]
        [⟨"dest", 500000⟩] 100).map
        (fun r => (r.changeNeeded, r.changeAmount, r.tx.changeOutput, r.fee))
      = .ok (true, -2553, none, 14000)
    ∧ (511447 : Int) - 500000 - estimateFee 1 1 100 = 547
    ∧ (547 : Int) > DustLimit := by
  refine ⟨by decide, by decide, by decide⟩

/-- Normal form of `BuildTransaction` on a single dust-passing output. -/
theorem buildTransaction_single_eq (utxos : List UTXO) (out : TxOutput)
    (feeRate : Int) (hdust : ¬ out.value < DustLimit) :
    BuildTransaction utxos [out] feeRate =
      (if sumValues utxos - out.value - estimateFee utxos.length 1 feeRate
          > DustLimit then
        .ok {
          fee := sumValues utxos - out.value
            - (sumValues utxos - out.value - estimateFee utxos.length 2 feeRate)
          totalInput := sumValues utxos
          totalOutput := out.value
          changeAmount := sumValues utxos - out.value
            - estimateFee utxos.length 2 feeRate
          changeNeeded := true
          tx := {
            version := wireTxVersion
            inputs := utxos.map (fun u => TxIn.mk u.txid u.vout SequenceRBF)
            paymentOutputValues := [out.value]
            changeOutput :=
              if sumValues utxos - out.value - estimateFee utxos.length 2 feeRate
                  > DustLimit then
                some (sumValues utxos - out.value
                  - estimateFee utxos.length 2 feeRate)
              else none } }
      else if sumValues utxos - out.value - estimateFee utxos.length 1 feeRate
          < 0 then
        .error (.insufficientFunds (sumValues utxos) out.value
          (estimateFee utxos.length 1 feeRate))
      else
        .ok {
          fee := sumValues utxos - out.value
          totalInput := sumValues utxos
          totalOutput := out.value
          changeAmount := 0
          changeNeeded := false
          tx := {
            version := wireTxVersion
            inputs := utxos.map (fun u => TxIn.mk u.txid u.vout SequenceRBF)
            paymentOutputValues := [out.value]
            changeOutput := none } }) := by
  have hfind : List.find? (fun o => decide (o.value < DustLimit)) [out] = none := by
    simp [List.find?, hdust]
  simp only [BuildTransaction, hfind, sumOutputValues, List.map_cons,
    List.map_nil, List.sum_cons, List.sum_nil, List.length_singleton, add_zero]

/-- C2 (amended): the change policy above holds for every build whose
requested output passes the dust check. -/
theorem c2_change_policy (utxos : List UTXO) (out : TxOutput) (feeRate : Int)
    (hdust : ¬ out.value < DustLimit) :
    ChangePolicySpec utxos out feeRate := by
  rw [ChangePolicySpec, buildTransaction_single_eq utxos out feeRate hdust]
  have hD : DustLimit = (546 : Int) := rfl
  refine ⟨?_, ?_, ?_⟩
  · intro res hres
    split at hres
    · rename_i hbig
      injection hres with hres
      subst hres
      refine ⟨by simpa using hbig, fun _ => ⟨rfl, by dsimp; ring, rfl⟩,
        fun hfalse => by simp at hfalse⟩
    · rename_i hnotbig
      split at hres
      · exact Except.noConfusion hres
      · injection hres with hres
        subst hres
        exact ⟨by simpa using hnotbig, fun hfalse => by simp at hfalse,
          fun _ => ⟨rfl, rfl, rfl⟩⟩
  · constructor
    · intro hneg
      rw [if_neg (by omega), if_pos hneg]
    · intro heq
      split at heq
      · exact Except.noConfusion heq
      · split at heq
        · assumption
        · exact Except.noConfusion heq
  · intro hnonneg
    split
    · exact ⟨_, rfl⟩
    · rw [if_neg (by omega)]
      exact ⟨_, rfl⟩

/-- C2 witness: the amended policy at the counterexample's concrete
input, where the recomputed change is negative and no change output is
emitted. -/
theorem c2_change_policy_witness :
    ¬ (500000 : Int) < DustLimit
    ∧ ChangePolicySpec [⟨"bb", 0, 511447, "addr", 0, [], "p2wpkh"⟩]
        ⟨"dest", 500000⟩ 100 := by
  refine ⟨by decide, ?_⟩
  exact c2_change_policy [⟨"bb", 0, 511447, "addr", 0, [], "p2wpkh"⟩]
    ⟨"dest", 500000⟩ 100 (by decide)

/-! ## Claim C3: coin selection -/

theorem sumValues_append (a b : List UTXO) :
    sumValues (a ++ b) = sumValues a + sumValues b := by
  simp [sumValues]

/-- On success the selection loop has accumulated a prefix of the sorted
list whose total covers target + fee. -/
theorem selectLoop_ok_spec (target feeRate : Int) :
    ∀ (rest selected : List UTXO) (total fee0 : Int) (sel : List UTXO) (fee : Int),
      total = sumValues selected →
      selectLoop target feeRate rest selected total fee0 = .ok (sel, fee) →
      (∃ t, sel ++ t = selected ++ rest) ∧ target + fee ≤ sumValues sel := by
  intro rest
  induction rest with
  | nil =>
    intro selected total fee0 sel fee _ h
    exact Except.noConfusion h
  | cons u rest ih =>
    intro selected total fee0 sel fee htot h
    have hsum : sumValues (selected ++ [u]) = sumValues selected + u.value := by
      simp [sumValues_append, sumValues]
    have htot' : total + u.value = sumValues (selected ++ [u]) := by
      rw [htot, hsum]
    simp only [selectLoop] at h
    split at h <;> split at h
    case isTrue.isTrue hty hcond =>
      injection h with h
      injection h with h1 h2
      subst h1
      subst h2
      refine ⟨⟨rest, by simp⟩, ?_⟩
      rw [hsum]
      omega
    case isTrue.isFalse hty hcond =>
      obtain ⟨⟨t, ht⟩, hge⟩ := ih (selected ++ [u]) (total + u.value) _ sel fee htot' h
      refine ⟨⟨t, ?_⟩, hge⟩
      rw [ht]
      simp
    case isFalse.isTrue hty hcond =>
      injection h with h
      injection h with h1 h2
      subst h1
      subst h2
      refine ⟨⟨rest, by simp⟩, ?_⟩
      rw [hsum]
      omega
    case isFalse.isFalse hty hcond =>
      obtain ⟨⟨t, ht⟩, hge⟩ := ih (selected ++ [u]) (total + u.value) _ sel fee htot' h
      refine ⟨⟨t, ?_⟩, hge⟩
      rw [ht]
      simp

/-- The loop can only fail with the insufficient-funds error. -/
theorem selectLoop_error_spec (target feeRate : Int) :
    ∀ (rest selected : List UTXO) (total fee0 : Int) (e : SelectError),
      selectLoop target feeRate rest selected total fee0 = .error e →
      ∃ a b c, e = .insufficientFunds a b c := by
  intro rest
  induction rest with
  | nil =>
    intro selected total fee0 e h
    simp only [selectLoop] at h
    injection h with h
    exact ⟨_, _, _, h.symm⟩
  | cons u rest ih =>
    intro selected total fee0 e h
    simp only [selectLoop] at h
    split at h <;> split at h
    case isTrue.isTrue => exact Except.noConfusion h
    case isTrue.isFalse => exact ih _ _ _ _ h
    case isFalse.isTrue => exact Except.noConfusion h
    case isFalse.isFalse => exact ih _ _ _ _ h

/-- The executable sort satisfies the documented `sort.Slice` contract. -/
theorem sortDescByValue_spec (l : List UTXO) :
    SortSliceDescByValue l (sortDescByValue l) := by
  exact ⟨List.perm_insertionSort _ l, List.sorted_insertionSort _ l⟩

/-- C3 counterexample: a non-empty UTXO list on which `SelectUTXOs` does
not return a selection at all — it fails with the insufficient-funds
error (the claim asserts every non-empty list yields a selection, and
reserves failure for the empty list). -/
theorem c3_counterexample :
    SelectUTXOs [⟨"abc", 0, 1000, "a", 0, [], ""⟩] 50000 10
      = .error (.insufficientFunds 1000 50000 1400)
    ∧ ([⟨"abc", 0, 1000, "a", 0, [], ""⟩] : List UTXO) ≠ [] := by
  refine ⟨by decide, by decide⟩

/-- C3 (amended): for any list ordered by the documented (unstable)
`sort.Slice` contract — descending by value, tie order unspecified — a
successful selection is a prefix of that ordering (hence of a
descending-value reordering of the input) and its total covers
target + returned fee; any failure on a non-empty list is the
insufficient-funds error; the empty list alone yields the no-UTXOs
error. -/
theorem c3_selection_policy (utxos sorted : List UTXO) (target feeRate : Int)
    (hsort : SortSliceDescByValue utxos sorted) :
    (∀ sel fee, selectFromSorted sorted target feeRate = .ok (sel, fee) →
      sel <+: sorted
      ∧ sorted.Perm utxos
      ∧ sorted.Sorted (fun a b => a.value ≥ b.value)
      ∧ target + fee ≤ sumValues sel)
    ∧ (∀ e, selectFromSorted sorted target feeRate = .error e →
      ∃ a b c, e = .insufficientFunds a b c)
    ∧ SelectUTXOs [] target feeRate = .error .noUTXOs
    ∧ (utxos.isEmpty = false →
        SelectUTXOs utxos target feeRate
          = selectFromSorted (sortDescByValue utxos) target feeRate
        ∧ SortSliceDescByValue utxos (sortDescByValue utxos)) := by
  refine ⟨?_, ?_, rfl, ?_⟩
  · intro sel fee h
    obtain ⟨⟨t, ht⟩, hge⟩ :=
      selectLoop_ok_spec target feeRate sorted [] 0 _ sel fee (by simp [sumValues]) h
    exact ⟨⟨t, by simpa using ht⟩, hsort.1, hsort.2, hge⟩
  · intro e h
    exact selectLoop_error_spec target feeRate sorted [] 0 _ e h
  · intro hne
    refine ⟨?_, sortDescByValue_spec utxos⟩
    simp [SelectUTXOs, hne]

/-- C3 witness: the amended statement at a concrete two-element input
with distinct values (where every compliant sort agrees), together with
the concrete selection it yields. -/
theorem c3_selection_policy_witness :
    SortSliceDescByValue
      [⟨"small1", 0, 10000, "a", 0, [], ""⟩, ⟨"large", 0, 100000, "a", 1, [], ""⟩]
      [⟨"large", 0, 100000, "a", 1, [], ""⟩, ⟨"small1", 0, 10000, "a", 0, [], ""⟩]
    ∧ selectFromSorted
        [⟨"large", 0, 100000, "a", 1, [], ""⟩, ⟨"small1", 0, 10000, "a", 0, [], ""⟩]
        40000 10
      = .ok ([⟨"large", 0, 100000, "a", 1, [], ""⟩], 1400)
    ∧ (([⟨"large", 0, 100000, "a", 1, [], ""⟩] : List UTXO) <+:
        [⟨"large", 0, 100000, "a", 1, [], ""⟩, ⟨"small1", 0, 10000, "a", 0, [], ""⟩]
      ∧ List.Perm
          ([⟨"large", 0, 100000, "a", 1, [], ""⟩,
            ⟨"small1", 0, 10000, "a", 0, [], ""⟩] : List UTXO)
          [⟨"small1", 0, 10000, "a", 0, [], ""⟩, ⟨"large", 0, 100000, "a", 1, [], ""⟩]
      ∧ List.Sorted (fun a b : UTXO => a.value ≥ b.value)
          [⟨"large", 0, 100000, "a", 1, [], ""⟩, ⟨"small1", 0, 10000, "a", 0, [], ""⟩]
      ∧ (40000 : Int) + 1400 ≤ sumValues [⟨"large", 0, 100000, "a", 1, [], ""⟩]) := by
  have hsort : SortSliceDescByValue
      [⟨"small1", 0, 10000, "a", 0, [], ""⟩, ⟨"large", 0, 100000, "a", 1, [], ""⟩]
      [⟨"large", 0, 100000, "a", 1, [], ""⟩, ⟨"small1", 0, 10000, "a", 0, [], ""⟩] := by
    constructor
    · decide
    · constructor
      · intro b hb
        simp only [List.mem_cons, List.mem_singleton] at hb
        rcases hb with rfl | hb
        · decide
        · simp at hb
      · constructor
        · intro b hb
          simp at hb
        · exact List.sorted_nil
  refine ⟨hsort, by decide, ?_⟩
  exact (c3_selection_policy
    [⟨"small1", 0, 10000, "a", 0, [], ""⟩, ⟨"large", 0, 100000, "a", 1, [], ""⟩]
    [⟨"large", 0, 100000, "a", 1, [], ""⟩, ⟨"small1", 0, 10000, "a", 0, [], ""⟩]
    40000 10 hsort).1
    [⟨"large", 0, 100000, "a", 1, [], ""⟩] 1400 (by decide)

/-! ## Claim C7: cache status-hash validity -/

/-- C7: after `SetAddressCache(a, s, …)` at time `t`, a
`GetAddressCacheIfValid(a, s′, …)` at time `t′` returns the stored entry
iff the entry's age is at most five minutes and `s` matches `s′`, where a
`none` stored status matches only a `none` current status; on a cache
with no entry for the address the get returns nothing.  (The entry is
always present after the set, so presence, age and status-match are
exactly the claim's three conditions.) -/
theorem c7_cache_status_validity (c : WalletCache) (a : String)
    (s s' : Option String) (bal : BalanceInfo) (hist : List TxHistoryItem)
    (ux : List CachedUTXO) (t t' : Timestamp) :
    (GetAddressCacheIfValid (SetAddressCache c a s bal hist ux t) a s' t'
        = some ⟨s, bal, hist, ux, t⟩
      ↔ (t' - t ≤ MaxCacheAge ∧ statusMatches s s' = true))
    ∧ GetAddressCacheIfValid emptyWalletCache a s' t' = none
    ∧ (statusMatches none s' = true ↔ s' = none) := by
  refine ⟨?_, rfl, ?_⟩
  · have hent : (SetAddressCache c a s bal hist ux t).addresses a
        = some ⟨s, bal, hist, ux, t⟩ := by
      simp [SetAddressCache]
    simp only [GetAddressCacheIfValid, hent]
    constructor
    · intro hget
      split_ifs at hget with h1 h2
      exact ⟨le_of_not_lt h1, by simpa using h2⟩
    · rintro ⟨hage, hst⟩
      rw [if_neg (not_lt_of_le hage), if_neg (by simp [hst])]
  · cases s' <;> simp [statusMatches]

/-! ## Claim C6: no cache write after a failed subscribe -/

/-- Every error path of `Client.Subscribe` returns a nil status pointer:
a failed or unparseable call never carries a status hash. -/
theorem clientSubscribe_err_status_nil (parseString : String → Option String)
    (r : CallResult) (h : (ClientSubscribe parseString r).2 ≠ none) :
    (ClientSubscribe parseString r).1 = none := by
  cases r with
  | err m => rfl
  | ok raw =>
    rw [ClientSubscribe] at h ⊢
    by_cases hnull : raw = "null"
    · rw [if_pos hnull] at h
      exact absurd rfl h
    · rw [if_neg hnull] at h ⊢
      rcases hp : parseString raw with _ | status
      · rfl
      · rw [hp] at h
        exact absurd rfl h

/-- C6: in every read-through operation — `getUTXOsForWallet` (send and
consolidate), the UTXO-listing read, the addresses read and the wallet
read — a subscribe call that returned an error means no address-cache
entry is written, regardless of whether the balance/history/utxo fetches
succeeded: `Client.Subscribe` returns a nil status alongside any error,
and each call site's write gate (`err == nil` or `currentStatus != nil`)
then blocks the write, so each step returns the cache unchanged and
reports no write. -/
theorem c6_no_cache_write_on_failed_subscribe
    (parseString : String → Option String) (r : CallResult)
    (c : WalletCache) (a : String) (now : Timestamp) (bal : BalanceInfo)
    (hist : List TxHistoryItem) (fetch : Option (List CachedUTXO))
    (ux : List CachedUTXO)
    (hfail : (ClientSubscribe parseString r).2 ≠ none) :
    (ClientSubscribe parseString r).1 = none
    ∧ getUTXOsForWalletStep c a (ClientSubscribe parseString r).1
        (ClientSubscribe parseString r).2 now bal hist fetch = (c, false)
    ∧ pathWalletUTXOsReadStep c a (ClientSubscribe parseString r).1
        (ClientSubscribe parseString r).2 now bal hist fetch = (c, false)
    ∧ subscribeGatedReadStep c a (ClientSubscribe parseString r).1
        (ClientSubscribe parseString r).2 now bal hist ux = (c, false) := by
  have hstat := clientSubscribe_err_status_nil parseString r hfail
  refine ⟨hstat, ?_, ?_, ?_⟩
  · simp only [getUTXOsForWalletStep, if_neg hfail, hstat]
    cases fetch <;> rfl
  · simp only [pathWalletUTXOsReadStep, if_neg hfail, hstat]
    cases fetch <;> rfl
  · simp only [subscribeGatedReadStep, if_neg hfail]

/-- C6 witness: the theorem at a concrete failed subscribe (a
connection-reset error from the call layer), a trivially succeeding
string parser, and successful fetches. -/
theorem c6_no_cache_write_on_failed_subscribe_witness :
    (ClientSubscribe (fun s => some s) (.err "connection reset")).2 ≠ none
    ∧ ((ClientSubscribe (fun s => some s) (.err "connection reset")).1 = none
      ∧ getUTXOsForWalletStep emptyWalletCache "addr"
          (ClientSubscribe (fun s => some s) (.err "connection reset")).1
          (ClientSubscribe (fun s => some s) (.err "connection reset")).2
          0 ⟨0, 0⟩ [] (some []) = (emptyWalletCache, false)
      ∧ pathWalletUTXOsReadStep emptyWalletCache "addr"
          (ClientSubscribe (fun s => some s) (.err "connection reset")).1
          (ClientSubscribe (fun s => some s) (.err "connection reset")).2
          0 ⟨0, 0⟩ [] (some []) = (emptyWalletCache, false)
      ∧ subscribeGatedReadStep emptyWalletCache "addr"
          (ClientSubscribe (fun s => some s) (.err "connection reset")).1
          (ClientSubscribe (fun s => some s) (.err "connection reset")).2
          0 ⟨0, 0⟩ [] [] = (emptyWalletCache, false)) :=
  ⟨by decide,
    c6_no_cache_write_on_failed_subscribe (fun s => some s)
      (.err "connection reset") emptyWalletCache "addr" 0 ⟨0, 0⟩ []
      (some []) [] (by decide)⟩

/-! ## Claim C5: failed broadcast leaves written state in place -/

/-- C5: when the broadcast of a built send or consolidation transaction
fails, the operation still returns the signed hex and the locally
computed txid; the change/destination address record written earlier and
the advanced `next_address_index` are not rolled back; no address is
marked spent (the records are exactly the prior records plus the new
unspent one); and the wallet cache is not invalidated.  Spent-flag
updates and the wholesale cache invalidation happen only in the
successful-broadcast branch. -/
theorem c5_failed_broadcast_keeps_state (st : BackendState)
    (changeAddr changePath changeSH : String) (txr : TransactionResult)
    (localTxid hexStr msg : String) (selected : List UTXO)
    (destAddr destPath destSH : String) (txr' : TransactionResult)
    (localTxid' hexStr' msg' : String) (outputValue : Int)
    (selected' : List UTXO) (netTxid : String) :
    ((sendOperation st changeAddr changePath changeSH txr localTxid hexStr
        selected (.failed msg)).response.txid = localTxid
    ∧ (sendOperation st changeAddr changePath changeSH txr localTxid hexStr
        selected (.failed msg)).response.hexReturned = some hexStr
    ∧ (sendOperation st changeAddr changePath changeSH txr localTxid hexStr
        selected (.failed msg)).response.broadcast = false
    ∧ (sendOperation st changeAddr changePath changeSH txr localTxid hexStr
        selected (.failed msg)).state.records
      = st.records ++ [⟨changeAddr, st.wallet.nextAddressIndex, changePath,
          changeSH, false⟩]
    ∧ (sendOperation st changeAddr changePath changeSH txr localTxid hexStr
        selected (.failed msg)).state.wallet.nextAddressIndex
      = st.wallet.nextAddressIndex + 1
    ∧ (sendOperation st changeAddr changePath changeSH txr localTxid hexStr
        selected (.failed msg)).state.cachePresent = st.cachePresent
    ∧ (sendOperation st changeAddr changePath changeSH txr localTxid hexStr
        selected (.failed msg)).invalidatedCache = false
    ∧ (sendOperation st changeAddr changePath changeSH txr localTxid hexStr
        selected (.failed msg)).markedSpent = [])
    ∧ ((consolidateOperation st destAddr destPath destSH txr' localTxid'
        hexStr' outputValue selected' (.failed msg')).response.txid = localTxid'
    ∧ (consolidateOperation st destAddr destPath destSH txr' localTxid'
        hexStr' outputValue selected' (.failed msg')).response.hexReturned
      = some hexStr'
    ∧ (consolidateOperation st destAddr destPath destSH txr' localTxid'
        hexStr' outputValue selected' (.failed msg')).response.broadcast = false
    ∧ (consolidateOperation st destAddr destPath destSH txr' localTxid'
        hexStr' outputValue selected' (.failed msg')).state.records
      = st.records ++ [⟨destAddr, st.wallet.nextAddressIndex, destPath,
          destSH, false⟩]
    ∧ (consolidateOperation st destAddr destPath destSH txr' localTxid'
        hexStr' outputValue selected' (.failed msg')).state.wallet.nextAddressIndex
      = st.wallet.nextAddressIndex + 1
    ∧ (consolidateOperation st destAddr destPath destSH txr' localTxid'
        hexStr' outputValue selected' (.failed msg')).state.cachePresent
      = st.cachePresent
    ∧ (consolidateOperation st destAddr destPath destSH txr' localTxid'
        hexStr' outputValue selected' (.failed msg')).invalidatedCache = false
    ∧ (consolidateOperation st destAddr destPath destSH txr' localTxid'
        hexStr' outputValue selected' (.failed msg')).markedSpent = [])
    ∧ ((sendOperation st changeAddr changePath changeSH txr localTxid hexStr
        selected (.ok netTxid)).invalidatedCache = true
    ∧ (sendOperation st changeAddr changePath changeSH txr localTxid hexStr
        selected (.ok netTxid)).state.cachePresent = false
    ∧ (sendOperation st changeAddr changePath changeSH txr localTxid hexStr
        selected (.ok netTxid)).markedSpent = selected.map (·.addressIndex)
    ∧ (consolidateOperation st destAddr destPath destSH txr' localTxid'
        hexStr' outputValue selected' (.ok netTxid)).invalidatedCache = true
    ∧ (consolidateOperation st destAddr destPath destSH txr' localTxid'
        hexStr' outputValue selected' (.ok netTxid)).state.cachePresent = false
    ∧ (consolidateOperation st destAddr destPath destSH txr' localTxid'
        hexStr' outputValue selected' (.ok netTxid)).markedSpent
      = selected'.map (·.addressIndex)) := by
  refine ⟨⟨rfl, rfl, rfl, rfl, rfl, rfl, rfl, rfl⟩,
    ⟨rfl, rfl, rfl, rfl, rfl, rfl, rfl, rfl⟩,
    rfl, rfl, rfl, rfl, rfl, rfl⟩

/-! ## Claim C8: compaction -/

theorem compactScan_ge (env : CompactEnv) (addresses : List AddrRecord) :
    ∀ (fuel idx : Nat), idx ≤ compactScan env addresses idx fuel := by
  intro fuel
  induction fuel with
  | zero =>
    intro idx
    simp [compactScan]
  | succ fuel ih =>
    intro idx
    rw [compactScan]
    split
    · exact le_trans (Nat.le_succ idx) (ih (idx + 1))
    · exact le_refl idx

theorem compactScan_le (env : CompactEnv) (addresses : List AddrRecord) :
    ∀ (fuel idx : Nat), compactScan env addresses idx fuel ≤ idx + fuel := by
  intro fuel
  induction fuel with
  | zero =>
    intro idx
    simp [compactScan]
  | succ fuel ih =>
    intro idx
    rw [compactScan]
    split
    · have := ih (idx + 1)
      omega
    · omega

theorem compactScan_ok_below (env : CompactEnv) (addresses : List AddrRecord) :
    ∀ (fuel idx i : Nat), idx ≤ i → i < compactScan env addresses idx fuel →
      compactOK env addresses i = true := by
  intro fuel
  induction fuel with
  | zero =>
    intro idx i hle hlt
    simp [compactScan] at hlt
    omega
  | succ fuel ih =>
    intro idx i hle hlt
    rw [compactScan] at hlt
    split at hlt
    · rename_i hok
      rcases Nat.eq_or_lt_of_le hle with rfl | hlt'
      · exact hok
      · exact ih (idx + 1) i hlt' hlt
    · omega

theorem compactScan_stop (env : CompactEnv) (addresses : List AddrRecord) :
    ∀ (fuel idx : Nat), compactScan env addresses idx fuel < idx + fuel →
      compactOK env addresses (compactScan env addresses idx fuel) = false := by
  intro fuel
  induction fuel with
  | zero =>
    intro idx h
    simp [compactScan] at h
  | succ fuel ih =>
    intro idx h
    by_cases hok : compactOK env addresses idx = true
    · have hrw : compactScan env addresses idx (fuel + 1)
          = compactScan env addresses (idx + 1) fuel := by
        rw [compactScan, if_pos hok]
      rw [hrw] at h ⊢
      apply ih (idx + 1)
      omega
    · have hrw : compactScan env addresses idx (fuel + 1) = idx := by
        rw [compactScan, if_neg hok]
      rw [hrw]
      simpa using hok

/-- C8: compaction advances the watermark exactly while records are spent
with a zero indexer balance, deletes exactly the records below it, never
lowers `first_active_index`, and leaves `next_address_index`
unchanged. -/
theorem c8_compaction_watermark (env : CompactEnv) (st : BackendState)
    (hle : st.wallet.firstActiveIndex ≤ st.wallet.nextAddressIndex) :
    CompactionCorrect env st := by
  unfold CompactionCorrect
  have hk : (runCompaction env st).response.newFirstActive
      = compactScan env st.records st.wallet.firstActiveIndex
        (st.wallet.nextAddressIndex - st.wallet.firstActiveIndex) := rfl
  refine ⟨?_, ?_, rfl, rfl, rfl, ?_, ?_, rfl⟩
  · rw [hk]
    exact compactScan_ge env st.records _ _
  · rw [hk]
    have := compactScan_le env st.records
      (st.wallet.nextAddressIndex - st.wallet.firstActiveIndex)
      st.wallet.firstActiveIndex
    omega
  · intro i h1 h2
    rw [hk] at h2
    exact compactScan_ok_below env st.records _ _ i h1 h2
  · intro hlt
    rw [hk] at hlt ⊢
    apply compactScan_stop env st.records
    omega

/-- C8 witness: the theorem at the S-compact scenario — indices 0..9 all
spent and empty — where `first_active_index` becomes 10, all ten records
are deleted and `next_address_index` stays 10. -/
theorem c8_compaction_watermark_witness :
    compactState0.wallet.firstActiveIndex
      ≤ compactState0.wallet.nextAddressIndex
    ∧ CompactionCorrect compactEnv0 compactState0
    ∧ (runCompaction compactEnv0 compactState0).response.newFirstActive = 10
    ∧ (runCompaction compactEnv0 compactState0).state.records = []
    ∧ (runCompaction compactEnv0 compactState0).state.wallet.nextAddressIndex
      = 10
    ∧ (runCompaction compactEnv0 compactState0).response.addressesDeleted = 10 := by
  refine ⟨by decide,
    c8_compaction_watermark compactEnv0 compactState0 (by decide),
    by decide, by decide, by decide, by decide⟩

/-! ## Claim C9: PSBT multi-sig strategy S3 -/

theorem tryKeyAt_some (env : KeyEnv) (pubkeys : List (List Nat))
    (chain idx : Nat) (pk : List Nat) :
    tryKeyAt env pubkeys chain idx = some pk →
    env.derive chain idx = some pk ∧ pk ∈ pubkeys := by
  intro h
  rw [tryKeyAt] at h
  rcases hd : env.derive chain idx with _ | pk2
  · simp only [hd] at h
    exact Option.noConfusion h
  · simp only [hd] at h
    split at h
    · injection h with h
      subst h
      exact ⟨rfl, by assumption⟩
    · exact Option.noConfusion h

/-- The S3 scan returns the first (index-major, chain-minor) wallet key
whose pubkey occurs in the script. -/
theorem scanForScriptKey_spec (env : KeyEnv) (pubkeys : List (List Nat)) :
    ∀ (fuel start idx chain : Nat) (pk : List Nat),
      scanForScriptKey env pubkeys start fuel = some (idx, chain, pk) →
      start ≤ idx ∧ idx < start + fuel ∧ chain ≤ 1
      ∧ tryKeyAt env pubkeys chain idx = some pk
      ∧ (∀ i c, start ≤ i → c ≤ 1 → (i < idx ∨ (i = idx ∧ c < chain)) →
          tryKeyAt env pubkeys c i = none) := by
  intro fuel
  induction fuel with
  | zero =>
    intro start idx chain pk h
    exact Option.noConfusion h
  | succ fuel ih =>
    intro start idx chain pk h
    rw [scanForScriptKey] at h
    rcases h0 : tryKeyAt env pubkeys 0 start with _ | pk0
    · rw [h0] at h
      rcases h1 : tryKeyAt env pubkeys 1 start with _ | pk1
      · rw [h1] at h
        obtain ⟨hge, hlt, hch, htry, hfirst⟩ := ih (start + 1) idx chain pk h
        refine ⟨by omega, by omega, hch, htry, ?_⟩
        intro i c hi hc hord
        rcases Nat.eq_or_lt_of_le hi with rfl | hi'
        · rcases c with _ | c'
          · exact h0
          · have hc' : c' = 0 := by omega
            subst hc'
            exact h1
        · exact hfirst i c hi' hc hord
      · rw [h1] at h
        injection h with h
        injection h with ha hb
        subst ha
        injection hb with hb1 hb2
        subst hb1
        subst hb2
        refine ⟨le_refl _, by omega, by omega, h1, ?_⟩
        intro i c hi hc hord
        rcases hord with hlt' | ⟨rfl, hclt⟩
        · exact absurd hlt' (by omega)
        · have hc' : c = 0 := by omega
          subst hc'
          exact h0
    · rw [h0] at h
      injection h with h
      injection h with ha hb
      subst ha
      injection hb with hb1 hb2
      subst hb1
      subst hb2
      refine ⟨le_refl _, by omega, by omega, h0, ?_⟩
      intro i c hi hc hord
      rcases hord with hlt' | ⟨rfl, hclt⟩
      · exact absurd hlt' (by omega)
      · exact absurd hclt (by omega)

/-- C9: strategy S3 runs only when the input carries a witness script;
when it signs, the signing key is the first — scanning indices
`0 ≤ idx < max(100, next_address_index + 20)` with chains 0 and 1 tried
per index — whose compressed pubkey occurs among the 33-byte pubkey
pushes of the script; the produced signature is ECDSA over the
witness script with `SIGHASH_ALL`, and `{pubkey, sig}` is appended to
`partial_sigs` without touching existing entries. -/
theorem c9_multisig_strategy (env : KeyEnv) (next : Nat)
    (input : PsbtInputModel) :
    (input.witnessScript = none → strategy3 env next input = none)
    ∧ (∀ out idx chain pk ws, input.witnessScript = some ws →
        strategy3 env next input = some (out, idx, chain, pk) →
        idx < multiSigScanBound next
        ∧ chain ≤ 1
        ∧ pk ∈ extractPubKeysFromScript ws
        ∧ env.derive chain idx = some pk
        ∧ out.witnessScript = input.witnessScript
        ∧ out.partialSigs = input.partialSigs ++ [(pk, ⟨ws, SigHashAll, pk⟩)]
        ∧ (∀ i c, c ≤ 1 → (i < idx ∨ (i = idx ∧ c < chain)) →
            tryKeyAt env (extractPubKeysFromScript ws) c i = none)) := by
  constructor
  · intro hnone
    rw [strategy3, hnone]
  · intro out idx chain pk ws hws h
    obtain ⟨wsopt, sigs⟩ := input
    obtain rfl : wsopt = some ws := hws
    simp only [strategy3, trySignMultiSig] at h
    by_cases hempty : (extractPubKeysFromScript ws).isEmpty
    · rw [if_pos hempty] at h
      exact Option.noConfusion h
    · rw [if_neg hempty] at h
      rcases hscan : scanForScriptKey env (extractPubKeysFromScript ws) 0
          (multiSigScanBound next) with _ | ⟨idx', chain', pk'⟩
      · simp only [hscan] at h
        exact Option.noConfusion h
      · simp only [hscan] at h
        injection h with h
        injection h with ha hb
        injection hb with hb1 hb2
        injection hb2 with hb3 hb4
        subst hb1
        subst hb3
        subst hb4
        subst ha
        obtain ⟨_, hlt, hch, htry, hfirst⟩ :=
          scanForScriptKey_spec env (extractPubKeysFromScript ws)
            (multiSigScanBound next) 0 idx' chain' pk' hscan
        obtain ⟨hder, hmem⟩ := tryKeyAt_some env _ chain' idx' pk' htry
        refine ⟨by omega, hch, hmem, hder, rfl, rfl, ?_⟩
        intro i c hc hord
        exact hfirst i c (Nat.zero_le i) hc hord

/-- C9 witness: the strategy at concrete inputs — no witness script means
S3 does not run, and with `msScript0` present the scan signs with the
chain-0 index-0 key, appending its partial signature. -/
theorem c9_multisig_strategy_witness :
    ((⟨none, []⟩ : PsbtInputModel).witnessScript = none
      → strategy3 keyEnv0 5 ⟨none, []⟩ = none)
    ∧ strategy3 keyEnv0 5 msInput0
      = some (⟨some msScript0, [(msPk0, ⟨msScript0, SigHashAll, msPk0⟩)]⟩,
          0, 0, msPk0)
    ∧ ((0 < multiSigScanBound 5)
      ∧ (0 ≤ 1)
      ∧ msPk0 ∈ extractPubKeysFromScript msScript0
      ∧ keyEnv0.derive 0 0 = some msPk0
      ∧ (⟨some msScript0,
          [(msPk0, ⟨msScript0, SigHashAll, msPk0⟩)]⟩ : PsbtInputModel).witnessScript
        = msInput0.witnessScript
      ∧ (⟨some msScript0,
          [(msPk0, ⟨msScript0, SigHashAll, msPk0⟩)]⟩ : PsbtInputModel).partialSigs
        = msInput0.partialSigs ++ [(msPk0, ⟨msScript0, SigHashAll, msPk0⟩)]
      ∧ (∀ i c, c ≤ 1 → (i < 0 ∨ (i = 0 ∧ c < 0)) →
          tryKeyAt keyEnv0 (extractPubKeysFromScript msScript0) c i = none)) := by
  refine ⟨(c9_multisig_strategy keyEnv0 5 ⟨none, []⟩).1, by decide, ?_⟩
  exact (c9_multisig_strategy keyEnv0 5 msInput0).2
    ⟨some msScript0, [(msPk0, ⟨msScript0, SigHashAll, msPk0⟩)]⟩
    0 0 msPk0 msScript0 rfl (by decide)

end VaultBtc
